import Mathlib

/-!
Verification of the provisioning-service control plane (Go sources under
`internal/domain` and the `service.Provisioner` handlers).

The Go maps (`NodePool.nodes`, `UserTracker.users`) are modelled as
association lists updated at the first occurrence of a key; `time.Time`
values are modelled as `Int` (unix seconds); outcomes of outbound HTTP
calls are explicit parameters.
-/

namespace Provisioning

/-- Node lifecycle status, from `node.go` (`NodeStatus` constants). -/
inductive NodeStatus
  | booting
  | ready
  | allocated
  | terminated
deriving DecidableEq, Repr

/-- A GPU node record, from `node.go` (`Node`). Timestamps are unix seconds. -/
structure Node where
  id : String
  status : NodeStatus
  userID : String
  createdAt : Int
  updatedAt : Int
deriving DecidableEq, Repr

/-- The pool's `map[string]*Node`, modelled as an association list keyed by
`Node.id`. -/
abbrev NodePool := List Node

/-- Go `NodePool.Get`: lookup by node id (first occurrence). -/
def getNode : NodePool → String → Option Node
  | [], _ => none
  | n :: rest, nid => if n.id = nid then some n else getNode rest nid

/-- Go `NodePool.Add`: insert or replace by identifier. -/
def addNode : NodePool → Node → NodePool
  | [], n => [n]
  | m :: rest, n => if m.id = n.id then n :: rest else m :: addNode rest n

/-- In-place mutation of the record stored under `nid` (the Go code mutates
the `*Node` obtained from the map); identity when the id is absent. -/
def setNode : NodePool → String → (Node → Node) → NodePool
  | [], _, _ => []
  | n :: rest, nid, f => if n.id = nid then f n :: rest else n :: setNode rest nid f

/-- Go `NodePool.UpdateStatus`: when present, set the status and bump
`UpdatedAt`; the bound `UserID` is left untouched. -/
def updateStatus (p : NodePool) (nid : String) (s : NodeStatus) (now : Int) : NodePool :=
  setNode p nid (fun n => { n with status := s, updatedAt := now })

/-- Go `NodePool.DeallocateNode`: when present, set status `ready`, clear the
user binding, bump `UpdatedAt`. -/
def deallocateNode (p : NodePool) (nid : String) (now : Int) : NodePool :=
  setNode p nid (fun n => { n with status := NodeStatus.ready, userID := "", updatedAt := now })

/-- Go `NodePool.AllocateNode`: `ready → allocated` test-and-set; returns
`false` (pool unchanged) when the id is absent or the node is not `ready`. -/
def allocateNode (p : NodePool) (nid uid : String) (now : Int) : Bool × NodePool :=
  match getNode p nid with
  | some n =>
      if n.status = NodeStatus.ready then
        (true, setNode p nid
          (fun m => { m with status := NodeStatus.allocated, userID := uid, updatedAt := now }))
      else (false, p)
  | none => (false, p)

/-- Go `NodePool.GetReadyNode`: some node with status `ready` (the list order
stands in for the map's unspecified iteration order). -/
def getReadyNode : NodePool → Option Node
  | [] => none
  | n :: rest => if n.status = NodeStatus.ready then some n else getReadyNode rest

/-- Go `NodePool.CountByStatus`. -/
def countByStatus : NodePool → NodeStatus → Nat
  | [], _ => 0
  | n :: rest, s => (if n.status = s then 1 else 0) + countByStatus rest s

/-- Go `NodePool.GetAllByStatus`. -/
def getAllByStatus : NodePool → NodeStatus → List Node
  | [], _ => []
  | n :: rest, s =>
      if n.status = s then n :: getAllByStatus rest s else getAllByStatus rest s

/-- User activity state, from `user.go` (`UserState`). -/
structure UserState where
  userID : String
  lastActivityTime : Int
  activityCount : Nat
  isConnected : Bool
  allocatedNodeID : String
deriving DecidableEq, Repr

/-- The tracker's `map[string]*UserState`, as an association list keyed by
`UserState.userID`. -/
abbrev UserTracker := List UserState

/-- Go `UserTracker.GetUserState`. -/
def getUserState : UserTracker → String → Option UserState
  | [], _ => none
  | s :: rest, uid => if s.userID = uid then some s else getUserState rest uid

/-- Go `UserTracker.RecordActivity`: unknown user gets a fresh state with
count 1; a known user's last-activity time is overwritten with the supplied
`ts` (no monotonicity check) and the count is incremented. -/
def recordActivity : UserTracker → String → Int → UserTracker
  | [], uid, ts => [⟨uid, ts, 1, false, ""⟩]
  | s :: rest, uid, ts =>
      if s.userID = uid then
        { s with lastActivityTime := ts, activityCount := s.activityCount + 1 } :: rest
      else s :: recordActivity rest uid ts

/-- Go `UserTracker.MarkConnected`: creates a zero-valued state when absent
(Go's `&UserState{UserID: userID}`), then sets the connected flag and the
bound node id. The activity count is NOT touched. -/
def markConnected : UserTracker → String → String → UserTracker
  | [], uid, nid => [⟨uid, 0, 0, true, nid⟩]
  | s :: rest, uid, nid =>
      if s.userID = uid then
        { s with isConnected := true, allocatedNodeID := nid } :: rest
      else s :: markConnected rest uid nid

/-- Go `UserTracker.MarkDisconnected`. -/
def markDisconnected : UserTracker → String → UserTracker
  | [], _ => []
  | s :: rest, uid =>
      if s.userID = uid then
        { s with isConnected := false, allocatedNodeID := "" } :: rest
      else s :: markDisconnected rest uid

/-- Go `UserTracker.ResetActivityCount` (defined in `user.go`; the repository
never calls it). -/
def resetActivityCount : UserTracker → String → UserTracker
  | [], _ => []
  | s :: rest, uid =>
      if s.userID = uid then { s with activityCount := 0 } :: rest
      else s :: resetActivityCount rest uid

/-- The allocator's error values, from `allocator.go`. -/
inductive AllocError
  | noReadyNode
  | userNotFound
  | nodeNotFound
  | nodeNotReady
  | alreadyAllocated
deriving DecidableEq, Repr

/-- Result of `AllocateNodeToUser`: the returned `(string, error)` pair plus
the post-states of the two aggregates it mutates. -/
structure AllocResult where
  nodeID : String
  err : Option AllocError
  pool : NodePool
  tracker : UserTracker
deriving DecidableEq, Repr

/-- Pick-and-allocate phase of `allocator.go` `AllocateNodeToUser` (after the
already-connected check): `GetReadyNode`, then `AllocateNode`, then
`MarkConnected` on success. The pool lock is released between `GetReadyNode`
and `AllocateNode`; `env` stands for the pool mutations other goroutines may
interleave in that window (`env = id` is the uninterfered sequential run).
On a failed `AllocateNode` the function returns `ErrNodeNotReady` at once:
there is no retry loop in the source. -/
def allocatePick (p : NodePool) (t : UserTracker) (uid : String)
    (env : NodePool → NodePool) (now : Int) : AllocResult :=
  match getReadyNode p with
  | none => ⟨"", some AllocError.noReadyNode, p, t⟩
  | some n =>
      match allocateNode (env p) n.id uid now with
      | (true, p2) => ⟨n.id, none, p2, markConnected t uid n.id⟩
      | (false, p2) => ⟨"", some AllocError.nodeNotReady, p2, t⟩

/-- Go `allocator.go` `AllocateNodeToUser` with an explicit interleaving
window `env` between the two pool lock acquisitions. -/
def allocateNodeToUserEnv (p : NodePool) (t : UserTracker) (uid : String)
    (env : NodePool → NodePool) (now : Int) : AllocResult :=
  match getUserState t uid with
  | some st =>
      if st.isConnected ∧ st.allocatedNodeID ≠ "" then
        ⟨st.allocatedNodeID, some AllocError.alreadyAllocated, p, t⟩
      else allocatePick p t uid env now
  | none => allocatePick p t uid env now

/-- Go `AllocateNodeToUser` run without interference (sequential case). -/
def allocateNodeToUser (p : NodePool) (t : UserTracker) (uid : String)
    (now : Int) : AllocResult :=
  allocateNodeToUserEnv p t uid id now

/-- A `node:status` bus message, from `events.go` (`NodeStatusEvent`). -/
structure NodeStatusEvent where
  nodeID : String
  status : NodeStatus
deriving DecidableEq, Repr

/-- Go `Provisioner.HandleNodeStatus` (service layer): insert a fresh record
when the id is unknown, else `UpdateStatus`; `now` is the handling time. -/
def handleNodeStatus (p : NodePool) (e : NodeStatusEvent) (now : Int) : NodePool :=
  match getNode p e.nodeID with
  | none => addNode p ⟨e.nodeID, e.status, "", now, now⟩
  | some _ => updateStatus p e.nodeID e.status now

/-- Go `Provisioner.provisionNode`: `provOutcome` is the node-lifecycle API
reply (`some id` on success, `none` on transport failure, in which case the
pool is untouched); a created node enters the pool with status `booting`. -/
def provisionNodePool (p : NodePool) (provOutcome : Option String) (now : Int) : NodePool :=
  match provOutcome with
  | some nid => addNode p ⟨nid, NodeStatus.booting, "", now, now⟩
  | none => p

/-- Result of `Provisioner.HandleUserConnect`: the handler's returned error,
the post-states, and how many provision calls it issued. -/
structure ConnectResult where
  err : Option AllocError
  pool : NodePool
  tracker : UserTracker
  provisionCalls : Nat
deriving DecidableEq, Repr

/-- Go `Provisioner.HandleUserConnect`: allocate; on `ErrNoReadyNode` issue
one emergency provision and still return the error; `ErrAlreadyAllocated` is
converted to success; other errors are returned as-is. -/
def handleUserConnect (p : NodePool) (t : UserTracker) (uid : String)
    (provOutcome : Option String) (now : Int) : ConnectResult :=
  let r := allocateNodeToUser p t uid now
  match r.err with
  | none => ⟨none, r.pool, r.tracker, 0⟩
  | some AllocError.noReadyNode =>
      ⟨some AllocError.noReadyNode, provisionNodePool r.pool provOutcome now, r.tracker, 1⟩
  | some AllocError.alreadyAllocated => ⟨none, r.pool, r.tracker, 0⟩
  | some e => ⟨some e, r.pool, r.tracker, 0⟩

/-- The predictor's scaling verdict, from `predictor.go` (`ScalingDecision`). -/
structure ScalingDecision where
  shouldScaleUp : Bool
  shouldScaleDown : Bool
  targetNodes : Int
  reason : String
deriving DecidableEq, Repr

/-- First phase of `CalculateScaling`: the scale-up branches (demand over
capacity, then the minimum-ready floor). Counts are `Nat` (they come from
`CountByStatus` and `len`); config fields are Go `int`, kept as `Int`. -/
def scalingStep1 (ready booting demand : Nat) (minReady : Int) : ScalingDecision :=
  if (demand : Int) > (ready : Int) + (booting : Int) then
    ⟨true, false, (demand : Int) - ((ready : Int) + (booting : Int)),
      "demand exceeds capacity"⟩
  else if (ready : Int) < minReady ∧ (ready : Int) + (booting : Int) < minReady then
    ⟨true, false, minReady - ((ready : Int) + (booting : Int)),
      "maintaining minimum ready nodes"⟩
  else ⟨false, false, 0, ""⟩

/-- Second phase of `CalculateScaling`: the `max_ready_nodes` cap. Note the
source first overwrites `TargetNodes` and only then clears `ShouldScaleUp`
when the overwritten value is non-positive — the negative value remains. -/
def scalingStep2 (ready booting allocated : Nat) (maxReady : Int)
    (d : ScalingDecision) : ScalingDecision :=
  if d.shouldScaleUp then
    if (ready : Int) + (booting : Int) + (allocated : Int) + d.targetNodes > maxReady then
      if maxReady - ((ready : Int) + (booting : Int) + (allocated : Int)) ≤ 0 then
        { d with targetNodes := maxReady - ((ready : Int) + (booting : Int) + (allocated : Int)),
                 shouldScaleUp := false }
      else
        { d with targetNodes := maxReady - ((ready : Int) + (booting : Int) + (allocated : Int)) }
    else d
  else d

/-- Third phase of `CalculateScaling`: scale down on excess ready capacity
with zero demand. -/
def scalingStep3 (ready demand : Nat) (minReady : Int)
    (d : ScalingDecision) : ScalingDecision :=
  if (ready : Int) - minReady > 0 ∧ demand = 0 then
    { d with shouldScaleDown := true, targetNodes := (ready : Int) - minReady,
             reason := "excess capacity with no demand" }
  else d

/-- Go `predictor.go` `CalculateScaling`, as a function of the snapshot
counts it reads (`demand` is `len(likelyUsers)`). -/
def calculateScaling (ready booting allocated demand : Nat)
    (minReady maxReady : Int) : ScalingDecision :=
  scalingStep3 ready demand minReady
    (scalingStep2 ready booting allocated maxReady
      (scalingStep1 ready booting demand minReady))

/-- Go `predictor.go` `GetIdleNodes`: ready nodes whose `UpdatedAt` is
strictly before `now - idleTimeout`, truncated to at most
`max (readyCount - minReady) 0` entries. -/
def getIdleNodes (p : NodePool) (now idleTimeout minReady : Int) : List Node :=
  let readyNodes := getAllByStatus p NodeStatus.ready
  let idle := readyNodes.filter (fun n => decide (n.updatedAt < now - idleTimeout))
  idle.take (max ((readyNodes.length : Int) - minReady) 0).toNat

/-- Go `service.go` `cleanupIdleNodes` with every terminate call succeeding:
each listed node id has its status set to `terminated` via `UpdateStatus`. -/
def terminateNodes (p : NodePool) (ids : List String) (now : Int) : NodePool :=
  ids.foldl (fun q nid => updateStatus q nid NodeStatus.terminated now) p

/-- A node record without its `updatedAt` field, used to state which fields a
duplicate status event preserves. -/
def nodeCore (n : Node) : String × NodeStatus × String × Int :=
  (n.id, n.status, n.userID, n.createdAt)

/-- C1: the code contradicts the `user_id ≠ "" ⇔ status = allocated`
invariant (and the `Node.UserID` field's own comment "Empty if not
allocated"): a `node:status(terminated)` event on an allocated node goes
through `UpdateStatus`, which sets the status but never clears `UserID`.
The run below is reachable: insert `n1` via a `ready` status event, allocate
it to `u1`, then handle `NodeStatusEvent{n1, terminated}`. -/
theorem updateStatus_breaks_user_id_invariant :
    getNode
      (handleNodeStatus
        (allocateNodeToUser (handleNodeStatus [] ⟨"n1", NodeStatus.ready⟩ 0) [] "u1" 1).pool
        ⟨"n1", NodeStatus.terminated⟩ 2) "n1"
      = some ⟨"n1", NodeStatus.terminated, "u1", 0, 2⟩
    ∧ "u1" ≠ "" ∧ NodeStatus.terminated ≠ NodeStatus.allocated := by
  refine ⟨rfl, ?_, ?_⟩ <;> decide

/-- C2 counterexample: with one ready node `n1` that an interleaved
`UpdateStatus` moves to `terminated` between the allocator's `GetReadyNode`
and `AllocateNode` calls, `AllocateNodeToUser` returns `ErrNodeNotReady`
immediately — there is no second pick-and-allocate attempt and the result is
not `ErrNoReadyNode`, contrary to the claim. -/
theorem allocateNodeToUser_no_retry_counterexample :
    (allocateNodeToUserEnv [⟨"n1", NodeStatus.ready, "", 0, 0⟩] [] "u1"
        (fun q => updateStatus q "n1" NodeStatus.terminated 5) 5).err
      = some AllocError.nodeNotReady
    ∧ some AllocError.nodeNotReady ≠ some AllocError.noReadyNode := by
  exact ⟨rfl, by decide⟩

/-- C3 counterexample: a terminated node (inserted by a
`NodeStatusEvent{n1, terminated}`) is moved back to `ready` by a subsequent
`NodeStatusEvent{n1, ready}` — `UpdateStatus` applies the new status
unconditionally, so `terminated` is not absorbing. -/
theorem terminated_not_absorbing_counterexample :
    getNode
      (handleNodeStatus (handleNodeStatus [] ⟨"n1", NodeStatus.terminated⟩ 0)
        ⟨"n1", NodeStatus.ready⟩ 1) "n1"
      = some ⟨"n1", NodeStatus.ready, "", 0, 1⟩
    ∧ NodeStatus.ready ≠ NodeStatus.terminated := by
  exact ⟨rfl, by decide⟩

/-- C4 counterexample: with 6 allocated nodes, demand 1, `min_ready = 1`,
`max_ready = 5`, the demand branch fires with delta 1, then the cap step
overwrites `TargetNodes` with `5 − 6 = −1` and clears `ShouldScaleUp`,
leaving a negative `target_delta` in the returned decision. -/
theorem calculateScaling_negative_target_counterexample :
    (calculateScaling 0 0 6 1 1 5).targetNodes = -1
    ∧ ¬ (0 : Int) ≤ (calculateScaling 0 0 6 1 1 5).targetNodes := by
  exact ⟨rfl, by decide⟩

/-- C6 counterexample: handling the same `NodeStatusEvent{n1, ready}` a
second time (at time 1, right after a first handling at time 0) does not
leave the pool identical — `UpdateStatus` bumps the node's `updatedAt`
field on the duplicate delivery. -/
theorem duplicate_node_status_counterexample :
    handleNodeStatus (handleNodeStatus [] ⟨"n1", NodeStatus.ready⟩ 0)
        ⟨"n1", NodeStatus.ready⟩ 1
      ≠ handleNodeStatus [] ⟨"n1", NodeStatus.ready⟩ 0 := by
  decide

/-- C8: a successful `AllocateNodeToUser` does not reset the user's activity
count — `ResetActivityCount` is defined in `user.go` but never called
anywhere in the repository, and `MarkConnected` leaves the count untouched.
Here user `u1` with activity count 3 is successfully allocated node `n1`
(no error) and the tracker still shows count 3, not 0. -/
theorem allocateNodeToUser_does_not_reset_activity_count :
    (allocateNodeToUser [⟨"n1", NodeStatus.ready, "", 0, 0⟩]
        [⟨"u1", 10, 3, false, ""⟩] "u1" 20).err = none
    ∧ getUserState
        (allocateNodeToUser [⟨"n1", NodeStatus.ready, "", 0, 0⟩]
          [⟨"u1", 10, 3, false, ""⟩] "u1" 20).tracker "u1"
        = some ⟨"u1", 10, 3, true, "n1"⟩
    ∧ (3 : Nat) ≠ 0 := by
  refine ⟨rfl, rfl, by decide⟩

theorem scalingStep1_scaleDown (r b d : Nat) (m : Int) :
    (scalingStep1 r b d m).shouldScaleDown = false := by
  unfold scalingStep1; split_ifs <;> rfl

theorem scalingStep2_scaleDown (r b a : Nat) (M : Int) (d : ScalingDecision) :
    (scalingStep2 r b a M d).shouldScaleDown = d.shouldScaleDown := by
  unfold scalingStep2; split_ifs <;> rfl

theorem scalingStep2_of_not_scaleUp (r b a : Nat) (M : Int) (d : ScalingDecision)
    (h : d.shouldScaleUp = false) : scalingStep2 r b a M d = d := by
  unfold scalingStep2; rw [h]; simp

theorem scalingStep1_scaleUp_demand_zero (r b : Nat) (m : Int)
    (h : (r : Int) - m > 0) : (scalingStep1 r b 0 m).shouldScaleUp = false := by
  unfold scalingStep1
  split_ifs with h1 h2
  · exfalso; omega
  · exfalso; omega
  · rfl

theorem scalingStep1_target_pos (r b d : Nat) (m : Int)
    (h : (scalingStep1 r b d m).shouldScaleUp = true) :
    0 < (scalingStep1 r b d m).targetNodes := by
  unfold scalingStep1 at h ⊢
  split_ifs at h ⊢ with h1 h2 <;> simp_all

theorem scalingStep2_target_pos (r b a : Nat) (M : Int) (d : ScalingDecision)
    (hd : d.shouldScaleUp = true → 0 < d.targetNodes)
    (h : (scalingStep2 r b a M d).shouldScaleUp = true) :
    0 < (scalingStep2 r b a M d).targetNodes := by
  unfold scalingStep2 at h ⊢
  split_ifs at h ⊢ with h1 h2 h3 <;> simp_all

/-- C7: for every combination of ready/booting/allocated counts and demand
(and any `min_ready`/`max_ready` configuration), the decision returned by
`CalculateScaling` never has `scale_up` and `scale_down` both true: the
scale-down branch requires zero demand and ready above the minimum, which
rules out both scale-up branches. -/
theorem calculateScaling_not_both_flags (r b a d : Nat) (m M : Int) :
    ((calculateScaling r b a d m M).shouldScaleUp
      && (calculateScaling r b a d m M).shouldScaleDown) = false := by
  unfold calculateScaling scalingStep3
  split_ifs with h
  · obtain ⟨h1, h2⟩ := h
    subst h2
    have hs1 : (scalingStep1 r b 0 m).shouldScaleUp = false :=
      scalingStep1_scaleUp_demand_zero r b m h1
    rw [scalingStep2_of_not_scaleUp r b a M _ hs1]
    simp [hs1]
  · rw [Bool.and_eq_false_iff]
    right
    rw [scalingStep2_scaleDown, scalingStep1_scaleDown]

/-- C4 (amended): whenever the decision returned by `CalculateScaling` has
`scale_up` or `scale_down` set, its `target_delta` is non-negative. (The
original unconditional claim fails: when the `max_ready_nodes` cap clears
`scale_up` while demand exceeds capacity, the decision is returned with both
flags false and a negative leftover `target_delta`.) -/
theorem calculateScaling_target_nonneg_when_flagged (r b a d : Nat) (m M : Int)
    (h : (calculateScaling r b a d m M).shouldScaleUp = true
       ∨ (calculateScaling r b a d m M).shouldScaleDown = true) :
    0 ≤ (calculateScaling r b a d m M).targetNodes := by
  unfold calculateScaling scalingStep3 at h ⊢
  split_ifs at h ⊢ with h3
  · simp only []; omega
  · have hdown : (scalingStep2 r b a M (scalingStep1 r b d m)).shouldScaleDown = false := by
      rw [scalingStep2_scaleDown, scalingStep1_scaleDown]
    have hup : (scalingStep2 r b a M (scalingStep1 r b d m)).shouldScaleUp = true := by
      rcases h with h | h
      · exact h
      · rw [hdown] at h; exact absurd h (by simp)
    have := scalingStep2_target_pos r b a M (scalingStep1 r b d m)
      (scalingStep1_target_pos r b d m) hup
    omega

/-- Witness for the amended C4: with empty pool and demand 2 the decision
scales up by 2, a non-negative delta. -/
theorem calculateScaling_target_nonneg_witness :
    (calculateScaling 0 0 0 2 1 5).shouldScaleUp = true
    ∧ 0 ≤ (calculateScaling 0 0 0 2 1 5).targetNodes :=
  ⟨by decide, calculateScaling_target_nonneg_when_flagged 0 0 0 2 1 5 (Or.inl (by decide))⟩

/-- C9: `RecordActivity` on a known user overwrites the stored last-activity
time with the caller-supplied `ts` even when `ts` is strictly earlier than
the stored time (and increments the count); the tracker therefore keeps the
delivery-order-last timestamp, not the maximum. -/
theorem recordActivity_overwrites_last_activity (t : UserTracker) (uid : String)
    (ts : Int) (st : UserState) (h : getUserState t uid = some st)
    (_hlt : ts < st.lastActivityTime) :
    getUserState (recordActivity t uid ts) uid
      = some { st with lastActivityTime := ts, activityCount := st.activityCount + 1 } := by
  induction t with
  | nil => simp [getUserState] at h
  | cons s rest ih =>
      simp only [getUserState] at h
      simp only [recordActivity]
      by_cases hs : s.userID = uid
      · rw [if_pos hs] at h
        cases h
        simp [getUserState, hs]
      · rw [if_neg hs] at h
        simp [getUserState, hs, ih h]

/-- Witness for C9: user `u1` last active at time 100 records an activity
carrying the earlier timestamp 50; the stored time becomes 50. -/
theorem recordActivity_overwrites_witness :
    (50 : Int) < 100
    ∧ getUserState (recordActivity [⟨"u1", 100, 1, false, ""⟩] "u1" 50) "u1"
        = some ⟨"u1", 50, 2, false, ""⟩ :=
  ⟨by decide,
    recordActivity_overwrites_last_activity [⟨"u1", 100, 1, false, ""⟩] "u1" 50
      ⟨"u1", 100, 1, false, ""⟩ rfl (by decide)⟩

theorem allocatePick_noReady_shape (p : NodePool) (t : UserTracker) (uid : String)
    (env : NodePool → NodePool) (now : Int)
    (h : (allocatePick p t uid env now).err = some AllocError.noReadyNode) :
    allocatePick p t uid env now = ⟨"", some AllocError.noReadyNode, p, t⟩ := by
  unfold allocatePick at h ⊢
  cases hr : getReadyNode p with
  | none => rfl
  | some n =>
      rcases ha : allocateNode (env p) n.id uid now with ⟨ok, p2⟩
      cases ok <;> simp only [hr, ha] at h <;> simp at h

theorem allocateNodeToUserEnv_noReady_shape (p : NodePool) (t : UserTracker)
    (uid : String) (env : NodePool → NodePool) (now : Int)
    (h : (allocateNodeToUserEnv p t uid env now).err = some AllocError.noReadyNode) :
    allocateNodeToUserEnv p t uid env now = ⟨"", some AllocError.noReadyNode, p, t⟩ := by
  unfold allocateNodeToUserEnv at h ⊢
  cases hu : getUserState t uid with
  | none =>
      rw [hu] at h
      exact allocatePick_noReady_shape p t uid env now h
  | some st =>
      rw [hu] at h
      replace h : ((if st.isConnected = true ∧ st.allocatedNodeID ≠ "" then
          (⟨st.allocatedNodeID, some AllocError.alreadyAllocated, p, t⟩ : AllocResult)
          else allocatePick p t uid env now)).err = some AllocError.noReadyNode := h
      show (if st.isConnected = true ∧ st.allocatedNodeID ≠ "" then
          (⟨st.allocatedNodeID, some AllocError.alreadyAllocated, p, t⟩ : AllocResult)
          else allocatePick p t uid env now) = ⟨"", some AllocError.noReadyNode, p, t⟩
      by_cases hc : st.isConnected = true ∧ st.allocatedNodeID ≠ ""
      · rw [if_pos hc] at h
        simp at h
      · rw [if_neg hc] at h ⊢
        exact allocatePick_noReady_shape p t uid env now h

/-- C10: when `AllocateNodeToUser` reports `ErrNoReadyNode`, the connect
handler `HandleUserConnect` issues exactly one emergency provision call and
still returns that (non-nil) error to the event layer, while the user
tracker is left exactly as it was (in particular the user is not marked
connected). -/
theorem handleUserConnect_noReady_emergency (p : NodePool) (t : UserTracker)
    (uid : String) (provOutcome : Option String) (now : Int)
    (h : (allocateNodeToUser p t uid now).err = some AllocError.noReadyNode) :
    handleUserConnect p t uid provOutcome now
      = ⟨some AllocError.noReadyNode, provisionNodePool p provOutcome now, t, 1⟩ := by
  unfold allocateNodeToUser at h
  have hshape := allocateNodeToUserEnv_noReady_shape p t uid id now h
  simp only [handleUserConnect, allocateNodeToUser, hshape]

/-- Witness for C10: cold miss on an empty pool — the handler returns
`ErrNoReadyNode`, provisions one booting node `n9`, and the tracker stays
empty (user `u2` not connected). -/
theorem handleUserConnect_noReady_witness :
    handleUserConnect [] [] "u2" (some "n9") 0
      = ⟨some AllocError.noReadyNode, [⟨"n9", NodeStatus.booting, "", 0, 0⟩], [], 1⟩ :=
  handleUserConnect_noReady_emergency [] [] "u2" (some "n9") 0 rfl

theorem allocatePick_fail_err (p : NodePool) (t : UserTracker) (uid : String)
    (env : NodePool → NodePool) (now : Int) (n : Node)
    (hpick : getReadyNode p = some n)
    (hfail : (allocateNode (env p) n.id uid now).1 = false) :
    (allocatePick p t uid env now).err = some AllocError.nodeNotReady := by
  unfold allocatePick
  rcases ha : allocateNode (env p) n.id uid now with ⟨ok, p2⟩
  rw [ha] at hfail
  cases ok
  · simp only [hpick, ha]
  · simp at hfail

/-- C2 (amended): the Allocator does not retry after a lost race. Whenever
the already-connected guard does not fire, `GetReadyNode` picks a node, and
the subsequent `AllocateNode` (against the pool as mutated by the
interleaved environment) returns false, `AllocateNodeToUser` returns
`ErrNodeNotReady` immediately — there is no second pick-and-allocate
attempt, and the surfaced error is not `ErrNoReadyNode`. -/
theorem allocateNodeToUser_race_returns_nodeNotReady (p : NodePool) (t : UserTracker)
    (uid : String) (env : NodePool → NodePool) (now : Int) (n : Node)
    (hguard : ∀ st, getUserState t uid = some st
      → ¬(st.isConnected ∧ st.allocatedNodeID ≠ ""))
    (hpick : getReadyNode p = some n)
    (hfail : (allocateNode (env p) n.id uid now).1 = false) :
    (allocateNodeToUserEnv p t uid env now).err = some AllocError.nodeNotReady := by
  unfold allocateNodeToUserEnv
  cases hu : getUserState t uid with
  | none => exact allocatePick_fail_err p t uid env now n hpick hfail
  | some st =>
      show (if st.isConnected = true ∧ st.allocatedNodeID ≠ "" then
          (⟨st.allocatedNodeID, some AllocError.alreadyAllocated, p, t⟩ : AllocResult)
          else allocatePick p t uid env now).err = some AllocError.nodeNotReady
      rw [if_neg (hguard st hu)]
      exact allocatePick_fail_err p t uid env now n hpick hfail

/-- Witness for the amended C2: one ready node `n2` and an interleaved
status update to `terminated` make the test-and-set fail; the allocator
surfaces `ErrNodeNotReady`. -/
theorem allocateNodeToUser_race_witness :
    (allocateNodeToUserEnv [⟨"n2", NodeStatus.ready, "", 0, 0⟩] [] "u1"
        (fun q => updateStatus q "n2" NodeStatus.terminated 7) 7).err
      = some AllocError.nodeNotReady :=
  allocateNodeToUser_race_returns_nodeNotReady
    [⟨"n2", NodeStatus.ready, "", 0, 0⟩] [] "u1"
    (fun q => updateStatus q "n2" NodeStatus.terminated 7) 7
    ⟨"n2", NodeStatus.ready, "", 0, 0⟩
    (fun st hst => by simp [getUserState] at hst) rfl (by decide)

theorem getNode_id (p : NodePool) (nid : String) (n : Node)
    (h : getNode p nid = some n) : n.id = nid := by
  induction p with
  | nil => simp [getNode] at h
  | cons m rest ih =>
      simp only [getNode] at h
      by_cases hm : m.id = nid
      · rw [if_pos hm] at h
        cases h
        exact hm
      · rw [if_neg hm] at h
        exact ih h

theorem getNode_setNode_self (p : NodePool) (nid : String) (f : Node → Node) (n : Node)
    (h : getNode p nid = some n) (hid : (f n).id = nid) :
    getNode (setNode p nid f) nid = some (f n) := by
  induction p with
  | nil => simp [getNode] at h
  | cons m rest ih =>
      simp only [getNode] at h
      simp only [setNode]
      by_cases hm : m.id = nid
      · rw [if_pos hm] at h
        cases h
        simp [getNode, hm, hid]
      · rw [if_neg hm] at h
        simp [getNode, hm, ih h]

/-- C3 (amended): a terminated node is indeed never moved by the allocation
path — `AllocateNode` returns false and leaves the pool unchanged — but
`UpdateStatus` (driven by any `NodeStatusEvent`) overwrites the status
unconditionally and `DeallocateNode` resets it to `ready`, so `terminated`
is not absorbing: the original claim fails exactly through those two
operations. -/
theorem terminated_node_transitions (p : NodePool) (nid : String) (n : Node)
    (h : getNode p nid = some n) (hterm : n.status = NodeStatus.terminated) :
    (∀ uid now, allocateNode p nid uid now = (false, p))
    ∧ (∀ s now, getNode (updateStatus p nid s now) nid
        = some { n with status := s, updatedAt := now })
    ∧ (∀ now, getNode (deallocateNode p nid now) nid
        = some { n with status := NodeStatus.ready, userID := "", updatedAt := now }) := by
  refine ⟨?_, ?_, ?_⟩
  · intro uid now
    unfold allocateNode
    rw [h]
    simp [hterm]
  · intro s now
    exact getNode_setNode_self p nid _ n h (getNode_id p nid n h)
  · intro now
    exact getNode_setNode_self p nid _ n h (getNode_id p nid n h)

/-- Witness for the amended C3: a pool holding only the terminated node `n3`;
allocation leaves it untouched, while a `ready` status update and a
deallocation both move it out of `terminated`. -/
theorem terminated_node_transitions_witness :
    allocateNode [⟨"n3", NodeStatus.terminated, "", 0, 0⟩] "n3" "u1" 4
        = (false, [⟨"n3", NodeStatus.terminated, "", 0, 0⟩])
    ∧ getNode (updateStatus [⟨"n3", NodeStatus.terminated, "", 0, 0⟩]
          "n3" NodeStatus.ready 4) "n3"
        = some ⟨"n3", NodeStatus.ready, "", 0, 4⟩
    ∧ getNode (deallocateNode [⟨"n3", NodeStatus.terminated, "", 0, 0⟩] "n3" 4) "n3"
        = some ⟨"n3", NodeStatus.ready, "", 0, 4⟩ :=
  ⟨(terminated_node_transitions [⟨"n3", NodeStatus.terminated, "", 0, 0⟩] "n3"
      ⟨"n3", NodeStatus.terminated, "", 0, 0⟩ rfl rfl).1 "u1" 4,
   (terminated_node_transitions [⟨"n3", NodeStatus.terminated, "", 0, 0⟩] "n3"
      ⟨"n3", NodeStatus.terminated, "", 0, 0⟩ rfl rfl).2.1 NodeStatus.ready 4,
   (terminated_node_transitions [⟨"n3", NodeStatus.terminated, "", 0, 0⟩] "n3"
      ⟨"n3", NodeStatus.terminated, "", 0, 0⟩ rfl rfl).2.2 4⟩

theorem getNode_addNode_self (p : NodePool) (n : Node) :
    getNode (addNode p n) n.id = some n := by
  induction p with
  | nil => simp [addNode, getNode]
  | cons m rest ih =>
      simp only [addNode]
      by_cases hm : m.id = n.id
      · rw [if_pos hm]
        simp [getNode]
      · rw [if_neg hm]
        simp [getNode, hm, ih]

theorem getNode_handleNodeStatus (p : NodePool) (e : NodeStatusEvent) (t : Int) :
    ∃ m, getNode (handleNodeStatus p e t) e.nodeID = some m ∧ m.status = e.status := by
  unfold handleNodeStatus
  cases hg : getNode p e.nodeID with
  | none => exact ⟨_, getNode_addNode_self p ⟨e.nodeID, e.status, "", t, t⟩, rfl⟩
  | some n =>
      exact ⟨_, getNode_setNode_self p e.nodeID _ n hg (getNode_id p e.nodeID n hg), rfl⟩

theorem map_nodeCore_setNode (p : NodePool) (nid : String) (f : Node → Node) (m : Node)
    (h : getNode p nid = some m) (hcore : nodeCore (f m) = nodeCore m) :
    (setNode p nid f).map nodeCore = p.map nodeCore := by
  induction p with
  | nil => simp [getNode] at h
  | cons a rest ih =>
      simp only [getNode] at h
      simp only [setNode]
      by_cases ha : a.id = nid
      · rw [if_pos ha] at h
        cases h
        simp [ha, hcore]
      · rw [if_neg ha] at h
        simp [ha, ih h]

/-- C6 (amended): handling the same `NodeStatusEvent` a second time,
immediately after a first handling, leaves every node's `id`, `status`,
`user_id` and `created_at` unchanged (the pool projected away from
`updated_at` is identical); only the target node's `updated_at` is refreshed
to the duplicate's handling time, so the full pool state is not preserved. -/
theorem duplicate_node_status_preserves_core (p : NodePool) (e : NodeStatusEvent)
    (t1 t2 : Int) :
    (handleNodeStatus (handleNodeStatus p e t1) e t2).map nodeCore
      = (handleNodeStatus p e t1).map nodeCore := by
  obtain ⟨m, hm, hs⟩ := getNode_handleNodeStatus p e t1
  generalize hp1 : handleNodeStatus p e t1 = p1 at hm ⊢
  unfold handleNodeStatus
  simp only [hm]
  exact map_nodeCore_setNode p1 e.nodeID _ m hm (by simp [nodeCore, hs])

theorem getAllByStatus_sublist (p : NodePool) (s : NodeStatus) :
    (getAllByStatus p s).Sublist p := by
  induction p with
  | nil => simp [getAllByStatus]
  | cons n rest ih =>
      simp only [getAllByStatus]
      by_cases hn : n.status = s
      · rw [if_pos hn]
        exact ih.cons₂ n
      · rw [if_neg hn]
        exact ih.cons n

theorem mem_getAllByStatus_status (p : NodePool) (s : NodeStatus) (n : Node)
    (h : n ∈ getAllByStatus p s) : n.status = s := by
  induction p with
  | nil => simp [getAllByStatus] at h
  | cons m rest ih =>
      simp only [getAllByStatus] at h
      by_cases hm : m.status = s
      · rw [if_pos hm] at h
        rcases List.mem_cons.mp h with rfl | h'
        · exact hm
        · exact ih h'
      · rw [if_neg hm] at h
        exact ih h

theorem length_getAllByStatus (p : NodePool) (s : NodeStatus) :
    (getAllByStatus p s).length = countByStatus p s := by
  induction p with
  | nil => rfl
  | cons m rest ih =>
      simp only [getAllByStatus, countByStatus]
      by_cases hm : m.status = s
      · simp [hm, ih]
        omega
      · simp [hm, ih]

theorem countByStatus_updateStatus_terminated (p : NodePool) (nid : String) (now : Int)
    (n : Node) (h : getNode p nid = some n) (hready : n.status = NodeStatus.ready) :
    countByStatus (updateStatus p nid NodeStatus.terminated now) NodeStatus.ready + 1
      = countByStatus p NodeStatus.ready := by
  unfold updateStatus
  induction p with
  | nil => simp [getNode] at h
  | cons m rest ih =>
      simp only [getNode] at h
      simp only [setNode]
      by_cases hm : m.id = nid
      · rw [if_pos hm] at h ⊢
        cases h
        simp only [countByStatus]
        simp [hready]
        omega
      · rw [if_neg hm] at h ⊢
        have hr := ih h
        simp only [countByStatus]
        omega

theorem getNode_setNode_ne (p : NodePool) (nid nid' : String) (f : Node → Node)
    (hf : ∀ x, (f x).id = x.id) (hne : nid' ≠ nid) :
    getNode (setNode p nid f) nid' = getNode p nid' := by
  induction p with
  | nil => rfl
  | cons m rest ih =>
      simp only [setNode]
      by_cases hm : m.id = nid
      · rw [if_pos hm]
        have h1 : ¬ (f m).id = nid' := by
          rw [hf m, hm]
          exact fun hh => hne hh.symm
        have h2 : ¬ m.id = nid' := by
          rw [hm]
          exact fun hh => hne hh.symm
        simp only [getNode, if_neg h1, if_neg h2]
      · rw [if_neg hm]
        simp only [getNode]
        by_cases hm' : m.id = nid'
        · rw [if_pos hm', if_pos hm']
        · rw [if_neg hm', if_neg hm', ih]

theorem getNode_of_mem_nodup (p : NodePool) (n : Node)
    (hnd : (p.map (fun x => x.id)).Nodup) (hmem : n ∈ p) :
    getNode p n.id = some n := by
  induction p with
  | nil => simp at hmem
  | cons m rest ih =>
      simp only [List.map_cons, List.nodup_cons] at hnd
      rcases List.mem_cons.mp hmem with rfl | hmem'
      · simp [getNode]
      · have hne : ¬ m.id = n.id := by
          intro hh
          exact hnd.1 (by rw [hh]; exact List.mem_map_of_mem (fun x => x.id) hmem')
        simp only [getNode, if_neg hne]
        exact ih hnd.2 hmem'

theorem countByStatus_terminateNodes (ids : List String) (p : NodePool) (now : Int)
    (hnd : ids.Nodup)
    (hready : ∀ nid ∈ ids, ∃ n, getNode p nid = some n ∧ n.status = NodeStatus.ready) :
    countByStatus (terminateNodes p ids now) NodeStatus.ready + ids.length
      = countByStatus p NodeStatus.ready := by
  induction ids generalizing p with
  | nil => simp [terminateNodes]
  | cons nid rest ih =>
      obtain ⟨n, hg, hr⟩ := hready nid (List.mem_cons_self nid rest)
      have hstep := countByStatus_updateStatus_terminated p nid now n hg hr
      have hnotmem := (List.nodup_cons.mp hnd).1
      have hnd' := (List.nodup_cons.mp hnd).2
      have hrest : ∀ nid' ∈ rest, ∃ m,
          getNode (updateStatus p nid NodeStatus.terminated now) nid' = some m
          ∧ m.status = NodeStatus.ready := by
        intro nid' hmem
        obtain ⟨m, hg', hr'⟩ := hready nid' (List.mem_cons_of_mem nid hmem)
        refine ⟨m, ?_, hr'⟩
        rw [updateStatus, getNode_setNode_ne p nid nid'
          (fun n => { n with status := NodeStatus.terminated, updatedAt := now })
          (fun x => rfl) (fun hh => hnotmem (hh ▸ hmem))]
        exact hg'
      have hi := ih (updateStatus p nid NodeStatus.terminated now) hnd' hrest
      have hfold : terminateNodes p (nid :: rest) now
          = terminateNodes (updateStatus p nid NodeStatus.terminated now) rest now := rfl
      rw [hfold]
      simp only [List.length_cons]
      omega

/-- C5: `GetIdleNodes` returns only `ready` nodes whose `updated_at` is
strictly older than `now − idle_termination_timeout`, at most
`max (R − min_ready) 0` of them where `R` is the ready count; consequently
a reconciliation tick that terminates exactly the returned nodes leaves at
least `min_ready` ready nodes whenever the pool held at least that many
before (pool ids are distinct, as in the Go map). -/
theorem getIdleNodes_respects_min_ready (p : NodePool) (now timeout minReady : Int)
    (hnd : (p.map (fun n => n.id)).Nodup)
    (hmin : minReady ≤ (countByStatus p NodeStatus.ready : Int)) :
    (∀ n ∈ getIdleNodes p now timeout minReady,
        n.status = NodeStatus.ready ∧ n.updatedAt < now - timeout)
    ∧ ((getIdleNodes p now timeout minReady).length : Int)
        ≤ max ((countByStatus p NodeStatus.ready : Int) - minReady) 0
    ∧ minReady ≤ (countByStatus
        (terminateNodes p
          ((getIdleNodes p now timeout minReady).map (fun n => n.id)) now)
        NodeStatus.ready : Int) := by
  have hidle : getIdleNodes p now timeout minReady
      = ((getAllByStatus p NodeStatus.ready).filter
          (fun n => decide (n.updatedAt < now - timeout))).take
        (max (((getAllByStatus p NodeStatus.ready).length : Int) - minReady) 0).toNat := rfl
  have hmemfilter : ∀ n ∈ getIdleNodes p now timeout minReady,
      n ∈ (getAllByStatus p NodeStatus.ready).filter
        (fun n => decide (n.updatedAt < now - timeout)) := by
    rw [hidle]
    exact fun n hn => (List.take_sublist _ _).subset hn
  have hsub : (getIdleNodes p now timeout minReady).Sublist p := by
    rw [hidle]
    exact ((List.take_sublist _ _).trans (List.filter_sublist _)).trans
      (getAllByStatus_sublist p NodeStatus.ready)
  have hprops : ∀ n ∈ getIdleNodes p now timeout minReady,
      n.status = NodeStatus.ready ∧ n.updatedAt < now - timeout := by
    intro n hn
    have hf := hmemfilter n hn
    have hmem := (List.mem_filter.mp hf).1
    refine ⟨mem_getAllByStatus_status p NodeStatus.ready n hmem, ?_⟩
    exact of_decide_eq_true ((List.mem_filter.mp hf).2)
  have hR : (getAllByStatus p NodeStatus.ready).length
      = countByStatus p NodeStatus.ready := length_getAllByStatus p NodeStatus.ready
  have hlen : ((getIdleNodes p now timeout minReady).length : Int)
      ≤ max ((countByStatus p NodeStatus.ready : Int) - minReady) 0 := by
    rw [hidle]
    have h1 : (((getAllByStatus p NodeStatus.ready).filter
        (fun n => decide (n.updatedAt < now - timeout))).take
          (max (((getAllByStatus p NodeStatus.ready).length : Int) - minReady) 0).toNat).length
        ≤ (max (((getAllByStatus p NodeStatus.ready).length : Int) - minReady) 0).toNat := by
      rw [List.length_take]
      exact min_le_left _ _
    have h2 : ((max (((getAllByStatus p NodeStatus.ready).length : Int) - minReady) 0).toNat : Int)
        = max (((getAllByStatus p NodeStatus.ready).length : Int) - minReady) 0 :=
      Int.toNat_of_nonneg (le_max_right _ _)
    rw [hR] at h2
    omega
  refine ⟨hprops, hlen, ?_⟩
  have hndids : ((getIdleNodes p now timeout minReady).map (fun n => n.id)).Nodup :=
    List.Nodup.sublist (hsub.map (fun n => n.id)) hnd
  have hready : ∀ nid ∈ (getIdleNodes p now timeout minReady).map (fun n => n.id),
      ∃ n, getNode p nid = some n ∧ n.status = NodeStatus.ready := by
    intro nid hnid
    obtain ⟨n, hn, rfl⟩ := List.mem_map.mp hnid
    exact ⟨n, getNode_of_mem_nodup p n hnd (hsub.subset hn),
      (hprops n hn).1⟩
  have hfold := countByStatus_terminateNodes
    ((getIdleNodes p now timeout minReady).map (fun n => n.id)) p now hndids hready
  rw [List.length_map] at hfold
  have hmax : max ((countByStatus p NodeStatus.ready : Int) - minReady) 0
      = (countByStatus p NodeStatus.ready : Int) - minReady :=
    max_eq_left (by omega)
  rw [hmax] at hlen
  omega

/-- Witness for C5: two idle ready nodes with `min_ready = 1`; after the
tick terminates the single node `GetIdleNodes` returned, one ready node is
left — the floor holds. -/
theorem getIdleNodes_respects_min_ready_witness :
    (([⟨"a", NodeStatus.ready, "", 0, 0⟩,
       ⟨"b", NodeStatus.ready, "", 0, 0⟩] : NodePool).map (fun n => n.id)).Nodup
    ∧ (1 : Int) ≤ (countByStatus
        [⟨"a", NodeStatus.ready, "", 0, 0⟩, ⟨"b", NodeStatus.ready, "", 0, 0⟩]
        NodeStatus.ready : Int)
    ∧ (1 : Int) ≤ (countByStatus
        (terminateNodes
          [⟨"a", NodeStatus.ready, "", 0, 0⟩, ⟨"b", NodeStatus.ready, "", 0, 0⟩]
          ((getIdleNodes
            [⟨"a", NodeStatus.ready, "", 0, 0⟩, ⟨"b", NodeStatus.ready, "", 0, 0⟩]
            400 300 1).map (fun n => n.id)) 400)
        NodeStatus.ready : Int) :=
  ⟨by decide, by decide,
    (getIdleNodes_respects_min_ready
      [⟨"a", NodeStatus.ready, "", 0, 0⟩, ⟨"b", NodeStatus.ready, "", 0, 0⟩]
      400 300 1 (by decide) (by decide)).2.2⟩

end Provisioning
